import Mathlib

/-!
# Verification of the NS3 WiFi control-plane script

Shallow embedding of `wifi_analysis_and_control.py`: the per-tick data read
from the shared-memory channel, the timestamp-window aggregation of downlink
throughput, the adaptive transmit-power directive, the main receive/process/send
loop with its exception and cleanup paths, and the CSV export of the
accumulated data points.

Python floats are modelled as rationals (`ℚ`); all float comparisons in the
source are exact equality, which rationals preserve.
-/

namespace WifiControl

/-- One tick of WiFi data read from the channel via `GetCpp2PyStruct()`
(source lines 110–120): station position, distance to the AP, downlink and
uplink throughput, the AP transmit power observed from the simulator, the
station id and the simulation timestamp. -/
structure WifiData where
  pos_x : ℚ
  pos_y : ℚ
  distance : ℚ
  dl_tp : ℚ
  ul_tp : ℚ
  get_ApTx : ℚ
  sta_id : ℚ
  now_sec : ℚ
deriving DecidableEq

/-- One `data_point` dict appended to `data_store` (source lines 181–192):
the tick's fields plus the computed directive `set_ApTx`, with the fields in
the dict's insertion order. -/
structure DataPoint where
  pos_x : ℚ
  pos_y : ℚ
  distance : ℚ
  dl_tp : ℚ
  ul_tp : ℚ
  get_ApTx : ℚ
  sta_id : ℚ
  now_sec : ℚ
  set_ApTx : ℚ
deriving DecidableEq

/-- Build the `data_point` dict of source lines 181–192 from the tick data and
the directive computed for that tick. -/
def mkDataPoint (w : WifiData) (tx : ℚ) : DataPoint :=
  { pos_x := w.pos_x
    pos_y := w.pos_y
    distance := w.distance
    dl_tp := w.dl_tp
    ul_tp := w.ul_tp
    get_ApTx := w.get_ApTx
    sta_id := w.sta_id
    now_sec := w.now_sec
    set_ApTx := tx }

/-- The window-aggregation state: the three globals of source lines 84–86,
`prev_now_sec` (previous simulation timestamp, sentinel `-1.0`),
`current_dl_values` (downlink samples of the in-progress window) and
`prev_mean_dl` (last computed window mean, `None` until a window closes). -/
structure AggState where
  prev_now_sec : ℚ
  current_dl_values : List ℚ
  prev_mean_dl : Option ℚ
deriving DecidableEq

/-- The initial aggregation state of source lines 84–86:
`prev_now_sec = -1.0`, `current_dl_values = []`, `prev_mean_dl = None`. -/
def initAgg : AggState := ⟨-1, [], none⟩

/-- One window-aggregation step, source lines 146–157: if `now_sec` differs
from `prev_now_sec`, the mean of `current_dl_values` is computed when that
list is non-empty and stored into `prev_mean_dl`, then `prev_now_sec` is set
to `now_sec` and the sample list is reset; in every case `dl_tp` is then
appended to `current_dl_values`.  The second component reports the mean
assigned in this step (`none` when line 149 did not execute), mirroring the
per-closure print at line 150. -/
def observe (s : AggState) (now_sec dl_tp : ℚ) : AggState × Option ℚ :=
  if now_sec ≠ s.prev_now_sec then
    if s.current_dl_values.isEmpty then
      (⟨now_sec, [dl_tp], s.prev_mean_dl⟩, none)
    else
      let m := s.current_dl_values.sum / (s.current_dl_values.length : ℚ)
      (⟨now_sec, [dl_tp], some m⟩, some m)
  else
    (⟨s.prev_now_sec, s.current_dl_values ++ [dl_tp], s.prev_mean_dl⟩, none)

/-- The adaptive-control computation of source lines 143 and 160–164 as a
function of `prev_mean_dl`: `set_ApTx` defaults to `20.0` and, when a previous
mean exists, becomes `max(1.0, min(30.0, 30.0 - 30.0 * prev_mean_dl / 100.0))`. -/
def computeDirective : Option ℚ → ℚ
  | none => 20
  | some m => max 1 (min 30 (30 - 30 * m / 100))

/-- Handshake operations performed on the message interface: `PyRecvBegin`,
`PyRecvEnd`, `PySendBegin`, `PySendEnd`, and the directive write into
`GetPy2CppStruct().set_ApTx` (source lines 94, 122, 196, 199, 201). -/
inductive HsOp where
  | recvBegin
  | recvEnd
  | sendBegin
  | sendEnd
  | writeTx (tx : ℚ)
deriving DecidableEq

/-- What the channel presents to one iteration's `PyRecvBegin`/read phase:
a fresh tick of WiFi data, the finish flag set (`PyGetFinished()` true), a
`ChannelError` raised from the read phase, or an external cancellation
(`KeyboardInterrupt`/`SystemExit`, which `except Exception` does not catch)
delivered while blocked in the read. -/
inductive ChannelEvent where
  | tick (w : WifiData)
  | finished
  | chanError
  | cancel
deriving DecidableEq

/-- How control left the `try` block of source lines 89–202: `normalExit` is
the `break` on the finish flag (the `else` clause then runs), `errorExit` is an
exception caught by `except Exception` (lines 205–224), `cancelExit` is a
`BaseException` that bypasses the handler (the `finally` block still runs). -/
inductive ExitKind where
  | normalExit
  | errorExit
  | cancelExit
deriving DecidableEq

/-- The mutable loop state: `data_store` (line 83) plus the aggregation
globals, and `closedMeans`, the list of means assigned at line 149 in order
(one entry per window closure, mirroring the print at line 150). -/
structure LoopState where
  data_store : List DataPoint
  agg : AggState
  closedMeans : List ℚ
deriving DecidableEq

/-- The loop state at script start: empty `data_store`, initial aggregation
globals, no closed windows. -/
def initLoop : LoopState := ⟨[], initAgg, []⟩

/-- One non-finish iteration of the main loop (source lines 94–201): read the
tick, update the window aggregation, compute the directive from the updated
`prev_mean_dl`, append the `data_point` to `data_store`, and return the
directive that the send phase writes back. -/
def stepTick (s : LoopState) (w : WifiData) : LoopState × ℚ :=
  let p := observe s.agg w.now_sec w.dl_tp
  let tx := computeDirective p.1.prev_mean_dl
  (⟨s.data_store ++ [mkDataPoint w tx], p.1, s.closedMeans ++ p.2.toList⟩, tx)

/-- Outcome of a run of the `try` block: the final loop state, the exit kind,
the handshake-operation trace, and the directive values written to the
channel, in order. -/
structure RunResult where
  state : LoopState
  exitKind : ExitKind
  trace : List HsOp
  writes : List ℚ
deriving DecidableEq

/-- The main loop of source lines 89–202 over a script of channel events, one
event consumed per iteration's read phase, threading the loop state, the
handshake trace and the written directives.  A tick runs lines 94–201 in
full; the finish flag runs `PyRecvBegin` then `break` (lines 94–99: no
`PyRecvEnd` before the `break`); a `ChannelError` or a cancellation leaves the
`try` block from within the read phase.  `none` means the script ended with
the loop still blocked in `PyRecvBegin`. -/
def runLoop (s : LoopState) (t : List HsOp) (ws : List ℚ) :
    List ChannelEvent → Option RunResult
  | [] => none
  | ChannelEvent.tick w :: rest =>
      let p := stepTick s w
      runLoop p.1
        (t ++ [HsOp.recvBegin, HsOp.recvEnd, HsOp.sendBegin,
               HsOp.writeTx p.2, HsOp.sendEnd])
        (ws ++ [p.2]) rest
  | ChannelEvent.finished :: _ =>
      some ⟨s, ExitKind.normalExit, t ++ [HsOp.recvBegin], ws⟩
  | ChannelEvent.chanError :: _ =>
      some ⟨s, ExitKind.errorExit, t, ws⟩
  | ChannelEvent.cancel :: _ =>
      some ⟨s, ExitKind.cancelExit, t, ws⟩

/-- Run the whole script from the initial state of source lines 83–86. -/
def runScript (evs : List ChannelEvent) : Option RunResult :=
  runLoop initLoop [] [] evs

/-- How many times the accumulated records are written to the CSV file after
the loop exits, per exit kind: the `except Exception` handler writes them when
`data_store` is non-empty (source lines 218–221) and then raises `SystemExit`
via `exit(1)`, and the `finally` block writes them again when `data_store` is
non-empty (source lines 248–250); the `finally` write is the only one on the
normal and cancellation paths. -/
def flushCount (e : ExitKind) (store : List DataPoint) : ℕ :=
  (match e with
   | ExitKind.errorExit => if store.isEmpty then 0 else 1
   | _ => 0)
  + (if store.isEmpty then 0 else 1)

/-- The CSV column order produced by `pd.DataFrame(data_store).to_csv`:
pandas uses the dict insertion order of the `data_point` literal at source
lines 181–191. -/
def csvHeader : List String :=
  ["pos_x", "pos_y", "distance", "dl_tp", "ul_tp",
   "get_ApTx", "sta_id", "now_sec", "set_ApTx"]

/-- One CSV row: the fields of a `DataPoint` in the `csvHeader` column order. -/
def toRow (p : DataPoint) : List ℚ :=
  [p.pos_x, p.pos_y, p.distance, p.dl_tp, p.ul_tp,
   p.get_ApTx, p.sta_id, p.now_sec, p.set_ApTx]

/-- Arithmetic mean of a sample list, as computed at source line 149:
`sum(current_dl_values) / len(current_dl_values)`. -/
def wmean (l : List ℚ) : ℚ := l.sum / (l.length : ℚ)

/-- Run the window aggregation of source lines 146–157 over a list of
`(now_sec, dl_tp)` records from a given state, returning the mean assigned
(or not) at each step, in order. -/
def runAggFrom (s : AggState) : List (ℚ × ℚ) → List (Option ℚ)
  | [] => []
  | r :: rest => (observe s r.1 r.2).2 :: runAggFrom (observe s r.1 r.2).1 rest

/-- The aggregation state after processing a list of `(now_sec, dl_tp)`
records from a given state. -/
def aggStateAfter (s : AggState) : List (ℚ × ℚ) → AggState
  | [] => s
  | r :: rest => aggStateAfter (observe s r.1 r.2).1 rest

/-- Run the window aggregation over a full record list from the initial
state of source lines 84–86. -/
def runAgg (recs : List (ℚ × ℚ)) : List (Option ℚ) :=
  runAggFrom initAgg recs

/-- Scenario tick: timestamp 1.0, downlink 10, all other fields zero. -/
def wA1 : WifiData := ⟨0, 0, 0, 10, 0, 0, 0, 1⟩

/-- Scenario tick: timestamp 1.0, downlink 20, all other fields zero. -/
def wA2 : WifiData := ⟨0, 0, 0, 20, 0, 0, 0, 1⟩

/-- Scenario tick: timestamp 1.0, downlink 30, all other fields zero. -/
def wA3 : WifiData := ⟨0, 0, 0, 30, 0, 0, 0, 1⟩

/-- Scenario tick: timestamp 2.0, downlink 50, all other fields zero. -/
def wB4 : WifiData := ⟨0, 0, 0, 50, 0, 0, 0, 2⟩

/-- Scenario A script: three ticks at timestamp 1.0 with downlink 10, 20, 30,
then the finish signal. -/
def scriptA : List ChannelEvent :=
  [ChannelEvent.tick wA1, ChannelEvent.tick wA2, ChannelEvent.tick wA3,
   ChannelEvent.finished]

/-- Scenario B script: scenario A's three ticks, then a tick at timestamp 2.0
with downlink 50, then the finish signal. -/
def scriptB : List ChannelEvent :=
  [ChannelEvent.tick wA1, ChannelEvent.tick wA2, ChannelEvent.tick wA3,
   ChannelEvent.tick wB4, ChannelEvent.finished]

/-- Error script: one tick at timestamp 1.0, then a ChannelError raised from
the next read phase. -/
def scriptErr : List ChannelEvent :=
  [ChannelEvent.tick wA1, ChannelEvent.chanError]

/-- Concrete outcome of `scriptErr`: one tick processed (directive 20), then
the ChannelError ends the run on the error path. -/
def rErr : RunResult :=
  ⟨⟨[mkDataPoint wA1 20], ⟨1, [10], none⟩, []⟩, ExitKind.errorExit,
   [HsOp.recvBegin, HsOp.recvEnd, HsOp.sendBegin, HsOp.writeTx 20,
    HsOp.sendEnd], [20]⟩

/-- Concrete outcome of the one-event finish script: no tick processed, the
trace is the single opening `recvBegin`. -/
def rFin : RunResult := ⟨initLoop, ExitKind.normalExit, [HsOp.recvBegin], []⟩

end WifiControl

namespace WifiControl

/-- First step of the aggregation from the initial state: whatever the first
record's timestamp, the sample is placed alone in the window, the window
timestamp becomes that record's timestamp, and no mean is assigned. -/
theorem observe_init (t d : ℚ) : observe initAgg t d = (⟨t, [d], none⟩, none) := by
  by_cases h : t = -1
  · subst h
    simp [observe, initAgg]
  · simp [observe, initAgg, h]

/-- C4: the directive computation is total in the previous window mean: absent
mean yields exactly 20.0, a present mean `m` yields the clamp of
`30 - 30*m/100` into `[1, 30]`, and every returned directive lies in `[1, 30]`. -/
theorem c4_directive_total_and_clamped :
    computeDirective none = 20 ∧
    (∀ m : ℚ, computeDirective (some m) = max 1 (min 30 (30 - 30 * m / 100))) ∧
    (∀ o : Option ℚ, 1 ≤ computeDirective o ∧ computeDirective o ≤ 30) := by
  refine ⟨rfl, fun m => rfl, fun o => ?_⟩
  cases o with
  | none =>
      constructor <;> norm_num [computeDirective]
  | some m =>
      refine ⟨le_max_left 1 _, ?_⟩
      have h30 : min 30 (30 - 30 * m / 100) ≤ (30 : ℚ) := min_le_left _ _
      exact max_le (by norm_num) h30

/-- C10: the aggregator starts with the sentinel timestamp `-1.0`, and the
first `observe` of a run never produces a mean, whatever the first record's
timestamp: the state after the first record always holds that record alone in
the window, with no mean computed (if the timestamp differs from `-1.0` the
transition fires on an empty sample list; if it equals `-1.0` exactly, no
transition fires and the sample joins the sentinel window). -/
theorem c10_first_observe_no_mean :
    initAgg.prev_now_sec = -1 ∧
    initAgg.current_dl_values = [] ∧
    initAgg.prev_mean_dl = none ∧
    ∀ t d : ℚ, observe initAgg t d = (⟨t, [d], none⟩, none) := by
  refine ⟨rfl, rfl, rfl, fun t d => ?_⟩
  by_cases h : t = -1
  · subst h
    simp [observe, initAgg]
  · simp [observe, initAgg, h]

/-- C5 counterexample: in scenario A the run closes zero windows, not one —
the finish signal breaks the loop before any timestamp transition, so the
mean-20 window is never closed and `prev_mean_dl` never becomes `some 20`. -/
theorem c5_counterexample_no_window_closes :
    (runScript scriptA).map (fun r => r.state.closedMeans) = some [] ∧
    ([] : List ℚ) ≠ [20] := by
  exact ⟨by decide, by decide⟩

/-- C5 amended: scenario A terminates normally with zero closed windows
(`prev_mean_dl` still absent at exit, since the finish signal arrives before
any timestamp transition) and directive history `[20, 20, 20]`. -/
theorem c5_scenarioA_amended :
    (runScript scriptA).map
        (fun r => (r.state.closedMeans, r.state.agg.prev_mean_dl,
                   r.state.data_store.map DataPoint.set_ApTx, r.exitKind)) =
      some ([], none, [20, 20, 20], ExitKind.normalExit) := by
  decide

/-- C6: in scenario B the window with mean 20 closes on the 1.0-to-2.0
transition (it is the only closed window), and the directive computed for the
timestamp-2.0 tick is `30 - 30*20/100 = 24.0`, the earlier three directives
being the default 20.0. -/
theorem c6_scenarioB_mean_closes_directive_24 :
    (runScript scriptB).map
        (fun r => (r.state.closedMeans,
                   r.state.data_store.map DataPoint.set_ApTx)) =
      some ([20], [20, 20, 20, 24]) := by
  norm_num [runScript, scriptB, runLoop, stepTick, observe, computeDirective,
    initLoop, initAgg, wA1, wA2, wA3, wB4, mkDataPoint]

/-- C7 counterexample: the CSV column order is not the claimed
station-id-first order — `sta_id` is the seventh column, after `get_ApTx`. -/
theorem c7_counterexample_column_order :
    csvHeader ≠ ["sta_id", "pos_x", "pos_y", "distance", "dl_tp", "ul_tp",
                 "get_ApTx", "now_sec", "set_ApTx"] := by
  decide

/-- C7 amended: every CSV row holds one ControlRecord with its columns in the
fixed dict-insertion order `pos_x, pos_y, distance, dl_tp, ul_tp, get_ApTx,
sta_id, now_sec, set_ApTx` (station id seventh, not first), the same constant
order on every run and for every record. -/
theorem c7_column_order_amended :
    csvHeader = ["pos_x", "pos_y", "distance", "dl_tp", "ul_tp",
                 "get_ApTx", "sta_id", "now_sec", "set_ApTx"] ∧
    ∀ (w : WifiData) (tx : ℚ),
      toRow (mkDataPoint w tx) =
        [w.pos_x, w.pos_y, w.distance, w.dl_tp, w.ul_tp,
         w.get_ApTx, w.sta_id, w.now_sec, tx] := by
  exact ⟨rfl, fun w tx => rfl⟩

/-- C1 counterexample: when a ChannelError is raised on the second read, the
run exits on the error path with one record collected, and the CSV write of
the accumulated records executes twice (once in the `except` handler, once in
the `finally` block), not exactly once. -/
theorem c1_counterexample_double_flush :
    (runScript scriptErr).map
        (fun r => (flushCount r.exitKind r.state.data_store,
                   r.state.data_store.length)) = some (2, 1) ∧
    (2 : ℕ) ≠ 1 := by
  exact ⟨by decide, by decide⟩

/-- C1 amended: on every run of the loop, the flush of the accumulated
records is skipped when no records exist; when records exist it executes
exactly once on normal termination and on cancellation (the `finally` write),
but exactly twice on the unhandled-error path, because the `except` handler
writes the CSV and the `finally` block then writes it again — both times with
the records collected so far. -/
theorem c1_flush_count_per_exit_path :
    ∀ (evs : List ChannelEvent) (r : RunResult),
      runScript evs = some r →
      flushCount r.exitKind r.state.data_store =
        if r.state.data_store.isEmpty then 0
        else if r.exitKind = ExitKind.errorExit then 2 else 1 := by
  intro evs r _
  cases hk : r.exitKind <;> cases hs : r.state.data_store.isEmpty <;>
    simp [flushCount, hs]

/-- Witness for C1 amended at the concrete error-path run of `scriptErr`. -/
theorem c1_flush_count_witness :
    flushCount rErr.exitKind rErr.state.data_store =
      if rErr.state.data_store.isEmpty then 0
      else if rErr.exitKind = ExitKind.errorExit then 2 else 1 :=
  c1_flush_count_per_exit_path scriptErr rErr (by decide)

/-- Trace bookkeeping for the normal exit path: if the accumulated trace is
read-balanced, a run that ends on the finish signal ends its trace with the
final `recvBegin` and holds exactly one more `recvBegin` than `recvEnd`. -/
theorem runLoop_normal_trace_balance :
    ∀ (evs : List ChannelEvent) (s : LoopState) (t : List HsOp) (ws : List ℚ)
      (r : RunResult),
      runLoop s t ws evs = some r →
      r.exitKind = ExitKind.normalExit →
      t.count HsOp.recvBegin = t.count HsOp.recvEnd →
      r.trace.getLast? = some HsOp.recvBegin ∧
      r.trace.count HsOp.recvBegin = r.trace.count HsOp.recvEnd + 1 := by
  intro evs
  induction evs with
  | nil => intro s t ws r hr; simp [runLoop] at hr
  | cons ev rest ih =>
      intro s t ws r hr hexit hbal
      cases ev with
      | tick w =>
          refine ih _ _ _ r hr hexit ?_
          simp [List.count_append, List.count_cons, hbal]
      | finished =>
          simp only [runLoop, Option.some.injEq] at hr
          subst hr
          refine ⟨List.getLast?_concat t, ?_⟩
          simp [List.count_append, List.count_cons, hbal]
      | chanError =>
          simp only [runLoop, Option.some.injEq] at hr
          subst hr
          simp at hexit
      | cancel =>
          simp only [runLoop, Option.some.injEq] at hr
          subst hr
          simp at hexit

/-- C2 amended: on every run that terminates via the finish signal, the loop
exits with the read phase still open — the final handshake operation of the
run is the last `beginRead` (so no `endRead` follows it and no write phase is
entered on the termination path), and the trace holds exactly one more
`beginRead` than `endRead`: the loop never releases the final read lock. -/
theorem c2_finish_leaves_read_open :
    ∀ (evs : List ChannelEvent) (r : RunResult),
      runScript evs = some r →
      r.exitKind = ExitKind.normalExit →
      r.trace.getLast? = some HsOp.recvBegin ∧
      r.trace.count HsOp.recvBegin = r.trace.count HsOp.recvEnd + 1 := by
  intro evs r hr hexit
  exact runLoop_normal_trace_balance evs initLoop [] [] r hr hexit rfl

/-- Witness for C2 amended at the concrete finish-only run. -/
theorem c2_finish_witness :
    rFin.trace.getLast? = some HsOp.recvBegin ∧
    rFin.trace.count HsOp.recvBegin = rFin.trace.count HsOp.recvEnd + 1 :=
  c2_finish_leaves_read_open [ChannelEvent.finished] rFin (by decide) rfl

/-- C8: window anomalies are non-fatal.  Processing a tick never leaves the
loop (the iteration always continues to the rest of the script, whatever the
tick's timestamp — including a regressing one); a window transition that finds
zero accumulated samples computes no mean and leaves `prev_mean_dl` unchanged;
and the directive of every iteration is computed from the currently known
`prev_mean_dl` after the window update. -/
theorem c8_window_anomalies_nonfatal :
    (∀ (s : LoopState) (t : List HsOp) (ws : List ℚ) (w : WifiData)
       (rest : List ChannelEvent),
       runLoop s t ws (ChannelEvent.tick w :: rest) =
         runLoop (stepTick s w).1
           (t ++ [HsOp.recvBegin, HsOp.recvEnd, HsOp.sendBegin,
                  HsOp.writeTx (stepTick s w).2, HsOp.sendEnd])
           (ws ++ [(stepTick s w).2]) rest) ∧
    (∀ (a : AggState) (t d : ℚ),
       t ≠ a.prev_now_sec → a.current_dl_values = [] →
       (observe a t d).1.prev_mean_dl = a.prev_mean_dl ∧
       (observe a t d).2 = none) ∧
    (∀ (s : LoopState) (w : WifiData),
       (stepTick s w).2 =
         computeDirective (observe s.agg w.now_sec w.dl_tp).1.prev_mean_dl) := by
  refine ⟨fun s t ws w rest => rfl, fun a t d h1 h2 => ?_, fun s w => rfl⟩
  simp [observe, h1, h2]

/-- Witness for C8 at a concrete regressing, zero-sample window transition:
previous timestamp 5, new timestamp 3, empty sample list, known mean 7. -/
theorem c8_window_anomalies_witness :
    (observe ⟨5, [], some 7⟩ 3 2).1.prev_mean_dl = some 7 ∧
    (observe ⟨5, [], some 7⟩ 3 2).2 = none :=
  c8_window_anomalies_nonfatal.2.1 ⟨5, [], some 7⟩ 3 2 (by norm_num) rfl

/-- Directive bookkeeping: the written-directive list always mirrors the
`set_ApTx` column of the accumulated data store. -/
theorem runLoop_writes_track_store :
    ∀ (evs : List ChannelEvent) (s : LoopState) (t : List HsOp) (ws : List ℚ)
      (r : RunResult),
      runLoop s t ws evs = some r →
      ws = s.data_store.map DataPoint.set_ApTx →
      r.writes = r.state.data_store.map DataPoint.set_ApTx := by
  intro evs
  induction evs with
  | nil => intro s t ws r hr; simp [runLoop] at hr
  | cons ev rest ih =>
      intro s t ws r hr hws
      cases ev with
      | tick w =>
          refine ih _ _ _ r hr ?_
          simp [stepTick, hws, mkDataPoint]
      | finished =>
          simp only [runLoop, Option.some.injEq] at hr
          subst hr
          exact hws
      | chanError =>
          simp only [runLoop, Option.some.injEq] at hr
          subst hr
          exact hws
      | cancel =>
          simp only [runLoop, Option.some.injEq] at hr
          subst hr
          exact hws

/-- C9: on every run, the directive value stored in each tick's data point
(`set_ApTx` appended to `data_store`) is identical to the directive written
back to the channel for that same tick — the written-directive sequence equals
the `set_ApTx` column of `data_store`, iteration by iteration. -/
theorem c9_stored_equals_written :
    ∀ (evs : List ChannelEvent) (r : RunResult),
      runScript evs = some r →
      r.writes = r.state.data_store.map DataPoint.set_ApTx := by
  intro evs r hr
  exact runLoop_writes_track_store evs initLoop [] [] r hr rfl

/-- Witness for C9 at the concrete error-path run of `scriptErr`. -/
theorem c9_stored_equals_written_witness :
    rErr.writes = rErr.state.data_store.map DataPoint.set_ApTx :=
  c9_stored_equals_written scriptErr rErr (by decide)

/-- Splitting an aggregation run: the state after an appended list is the
state of the second part started from the state after the first part. -/
theorem aggStateAfter_append (l1 l2 : List (ℚ × ℚ)) :
    ∀ s : AggState,
      aggStateAfter s (l1 ++ l2) = aggStateAfter (aggStateAfter s l1) l2 := by
  induction l1 with
  | nil => intro s; rfl
  | cons r rest ih => intro s; exact ih ((observe s r.1 r.2).1)

/-- Taking one more element appends the element at that index. -/
theorem take_succ_get (l : List (ℚ × ℚ)) :
    ∀ (i : ℕ) (hi : i < l.length),
      l.take (i + 1) = l.take i ++ [l[i]] := by
  induction l with
  | nil => intro i hi; simp at hi
  | cons a as ih =>
      intro i hi
      cases i with
      | zero => rfl
      | succ n =>
          have hn : n < as.length := Nat.lt_of_succ_lt_succ hi
          show a :: as.take (n + 1) = (a :: as.take n) ++ [as[n]]
          rw [ih n hn]
          rfl

/-- The aggregation output at index `i` is the mean reported by `observe` on
record `i` run from the state after the first `i` records. -/
theorem runAggFrom_getElem (l : List (ℚ × ℚ)) :
    ∀ (s : AggState) (i : ℕ) (hi : i < l.length),
      (runAggFrom s l).get? i =
        some (observe (aggStateAfter s (l.take i)) l[i].1 l[i].2).2 := by
  induction l with
  | nil => intro s i hi; simp at hi
  | cons r rest ih =>
      intro s i hi
      cases i with
      | zero => rfl
      | succ n =>
          have hn : n < rest.length := Nat.lt_of_succ_lt_succ hi
          exact ih ((observe s r.1 r.2).1) n hn

/-- Invariant of the aggregation run on timestamp-sorted records: after a
non-empty record list, `prev_now_sec` is the last record's timestamp and
`current_dl_values` holds exactly the downlink values of the records sharing
that timestamp. -/
theorem aggStateAfter_last_group :
    ∀ (l : List (ℚ × ℚ)) (a : ℚ × ℚ),
      ((l ++ [a]).map Prod.fst).Sorted (fun x y => x ≤ y) →
      (aggStateAfter initAgg (l ++ [a])).prev_now_sec = a.1 ∧
      (aggStateAfter initAgg (l ++ [a])).current_dl_values =
        ((l ++ [a]).filter (fun r => r.1 = a.1)).map Prod.snd := by
  intro l
  induction l using List.reverseRecOn with
  | nil =>
      intro a _
      rw [List.nil_append]
      rw [show aggStateAfter initAgg [a] = (observe initAgg a.1 a.2).1 from rfl,
        observe_init]
      exact ⟨rfl, by simp⟩
  | append_singleton l' b ih =>
      intro a hsort
      have hsub : List.Sublist ((l' ++ [b]).map Prod.fst)
          (((l' ++ [b]) ++ [a]).map Prod.fst) :=
        List.Sublist.map _ (List.sublist_append_left _ _)
      have hsort' : ((l' ++ [b]).map Prod.fst).Sorted (fun x y => x ≤ y) :=
        List.Pairwise.sublist hsub hsort
      obtain ⟨hprev, hbuf⟩ := ih b hsort'
      have hstep : aggStateAfter initAgg ((l' ++ [b]) ++ [a]) =
          (observe (aggStateAfter initAgg (l' ++ [b])) a.1 a.2).1 := by
        rw [aggStateAfter_append]; rfl
      have hble : b.1 ≤ a.1 := by
        have h1 : (((l' ++ [b]).map Prod.fst) ++ [a.1]).Pairwise
            (fun x y => x ≤ y) := by
          simpa [List.map_append] using hsort
        exact (List.pairwise_append.mp h1).2.2 b.1
          (List.mem_map_of_mem Prod.fst (by simp)) a.1 (by simp)
      by_cases hab : a.1 = b.1
      · constructor
        · rw [hstep]
          simp [observe, hprev, hab]
        · rw [hstep]
          simp [observe, hprev, hab, hbuf, List.filter_append]
      · have hba : b.1 < a.1 := lt_of_le_of_ne hble (fun hc => hab hc.symm)
        have hbne : ¬(b.1 = a.1) := fun hc => hab hc.symm
        have hxle : ∀ x ∈ l' ++ [b], x.1 ≤ b.1 := by
          intro x hx
          rcases List.mem_append.mp hx with h1 | h2
          · have h3 : ((l'.map Prod.fst) ++ [b.1]).Pairwise
                (fun x y => x ≤ y) := by
              simpa [List.map_append] using hsort'
            exact (List.pairwise_append.mp h3).2.2 x.1
              (List.mem_map_of_mem Prod.fst h1) b.1 (by simp)
          · simp at h2
            subst h2
            exact le_refl _
        have hfl : l'.filter (fun r => decide (r.1 = a.1)) = [] := by
          refine List.filter_eq_nil_iff.mpr fun x hx => ?_
          simp only [decide_eq_true_eq]
          exact ne_of_lt (lt_of_le_of_lt (hxle x (List.mem_append_left _ hx)) hba)
        constructor
        · rw [hstep]
          by_cases hempty :
              (aggStateAfter initAgg (l' ++ [b])).current_dl_values.isEmpty <;>
            simp [observe, hprev, hab, hempty]
        · rw [hstep]
          by_cases hempty :
              (aggStateAfter initAgg (l' ++ [b])).current_dl_values.isEmpty <;>
            simp [observe, hprev, hab, hempty, List.filter_append, hfl, hbne]

/-- C3: for every record sequence with non-decreasing timestamps, the window
aggregation assigns a mean exactly once per distinct timestamp transition —
never on the first record, never when the timestamp repeats exactly, and
exactly when the timestamp changes — and the assigned mean is the arithmetic
mean of exactly the downlink samples observed so far whose timestamp equals
the prior window timestamp, with exact equality of timestamps (no epsilon). -/
theorem c3_mean_once_per_transition :
    ∀ (recs : List (ℚ × ℚ)),
      (recs.map Prod.fst).Sorted (fun x y => x ≤ y) →
      (∀ h0 : 0 < recs.length, (runAgg recs).get? 0 = some none) ∧
      (∀ (i : ℕ) (hi : i + 1 < recs.length),
        (runAgg recs).get? (i + 1) =
          some (if recs[i + 1].1 = recs[i].1
            then none
            else some (wmean (((recs.take (i + 1)).filter
              (fun r => r.1 = recs[i].1)).map Prod.snd)))) := by
  intro recs hsort
  constructor
  · intro h0
    rw [runAgg, runAggFrom_getElem recs initAgg 0 h0, List.take_zero]
    rw [show aggStateAfter initAgg [] = initAgg from rfl, observe_init]
  · intro i hi
    have hi' : i < recs.length := Nat.lt_of_succ_lt hi
    rw [runAgg, runAggFrom_getElem recs initAgg (i + 1) hi]
    have htake : recs.take (i + 1) = recs.take i ++ [recs[i]] :=
      take_succ_get recs i hi'
    have hsorttake :
        ((recs.take (i + 1)).map Prod.fst).Sorted (fun x y => x ≤ y) :=
      List.Pairwise.sublist
        (List.Sublist.map _ (List.take_sublist _ _)) hsort
    have hspec := aggStateAfter_last_group (recs.take i) (recs[i])
      (by rw [← htake]; exact hsorttake)
    rw [← htake] at hspec
    obtain ⟨hprev, hbuf⟩ := hspec
    by_cases h : recs[i + 1].1 = recs[i].1
    · rw [if_pos h]
      simp [observe, hprev, h]
    · rw [if_neg h]
      have hmem : recs[i] ∈ recs.take (i + 1) := by
        rw [htake]
        exact List.mem_append_right _ (List.mem_singleton_self _)
      have hmemf : recs[i] ∈ (recs.take (i + 1)).filter
          (fun r => decide (r.1 = recs[i].1)) :=
        List.mem_filter.mpr ⟨hmem, by simp⟩
      have hnil : (aggStateAfter initAgg
          (recs.take (i + 1))).current_dl_values ≠ [] := by
        rw [hbuf]
        simp only [ne_eq, List.map_eq_nil_iff]
        exact List.ne_nil_of_mem hmemf
      have hempty : (aggStateAfter initAgg
          (recs.take (i + 1))).current_dl_values.isEmpty = false := by
        rcases hl : (aggStateAfter initAgg
            (recs.take (i + 1))).current_dl_values with _ | _
        · exact absurd hl hnil
        · rfl
      have hcond : recs[i + 1].1 ≠
          (aggStateAfter initAgg (recs.take (i + 1))).prev_now_sec := by
        rw [hprev]; exact h
      simp only [observe, if_pos hcond, hempty, Bool.false_eq_true, if_false]
      rw [hbuf]
      rfl

/-- Witness for C3 at the record list `[(1, 10), (1, 20), (2, 30)]`: the
index-2 transition from timestamp 1 to 2 assigns the mean `(10+20)/2 = 15`. -/
theorem c3_mean_once_witness :
    (runAgg [((1 : ℚ), 10), ((1 : ℚ), 20), ((2 : ℚ), 30)]).get? 2 =
      some (some 15) := by
  have h := (c3_mean_once_per_transition
    [((1 : ℚ), 10), ((1 : ℚ), 20), ((2 : ℚ), 30)]
    (by norm_num [List.sorted_cons])).2 1 (by norm_num)
  rw [h]
  norm_num [wmean, List.take, List.filter]

/-- C2 counterexample: when the finish signal is observed, the loop breaks
with the read phase still open — the handshake trace of the run is exactly
`[recvBegin]`, which contains no `recvEnd`, so `endRead` is not called on the
termination path. -/
theorem c2_counterexample_no_recvEnd :
    (runScript [ChannelEvent.finished]).map RunResult.trace =
      some [HsOp.recvBegin] ∧
    HsOp.recvEnd ∉ [HsOp.recvBegin] := by
  exact ⟨by decide, by decide⟩

end WifiControl
